import Mathlib

/-!
Verification development for the recursive N-dimensional convolution operators
of FunctionsNd.py (classes ConvNd and ConvTransposeNd).

Embedding conventions:
* Tensors are total functions from their index tuple (batch, channel, spatial
  positions...) to Int, with spatial extents carried separately.  Values are
  integers: the numeric claims are about the index bookkeeping of the
  decomposition, which is value-type agnostic.
* Python floor division and modulo on ints with a positive divisor coincide
  with Int's division and modulo (Euclidean, used throughout).
* The base convolution primitives of the tensor engine (torch Conv1d/2d/3d and
  the transposed variants) are modelled by their standard cross-correlation
  semantics with groups fixed at 1 and dilation 1, which is how the source
  always invokes them.
* Stateful construction and the mutable frame-accumulator loop of forward are
  translated to explicit state passing (an Except monad for construction, a
  fold over a list of optional frames for the overlap-add loop).
-/

/-- The padding_mode argument: the source compares it against the string
'zeros' and otherwise uses reflect padding. -/
inductive PadMode where
  | zeros
  | reflect
deriving DecidableEq

/-- Reading position t of a signal of length len padded by p on both sides;
zero fill or reflect according to the mode (torch F.pad semantics). -/
def padIdx (mode : PadMode) (len p : Nat) (f : Nat → Int) (t : Nat) : Int :=
  if p ≤ t ∧ t < p + len then f (t - p)
  else
    match mode with
    | .zeros => 0
    | .reflect => if t < p then f (p - t) else f (2 * len - 2 + p - t)

/-- Base 1D convolution primitive (torch nn.Conv1d with groups 1, dilation 1):
cross-correlation of weight w (out-channel, in-channel, tap) with the padded
input x (batch, in-channel, position), optional bias per out-channel. -/
def conv1d (mode : PadMode) (cin k s p : Nat) (useBias : Bool) (bias : Nat → Int)
    (w : Nat → Nat → Nat → Int) (x : Nat → Nat → Nat → Int) (len : Nat)
    (n co o : Nat) : Int :=
  (∑ ci in Finset.range cin, ∑ a in Finset.range k,
    w co ci a * padIdx mode len p (x n ci) (o * s + a))
  + (if useBias then bias co else 0)

/-- Base 2D convolution primitive (torch nn.Conv2d with groups 1, dilation 1). -/
def conv2d (mode : PadMode) (cin k0 k1 s0 s1 p0 p1 : Nat) (useBias : Bool)
    (bias : Nat → Int) (w : Nat → Nat → Nat → Nat → Int)
    (x : Nat → Nat → Nat → Nat → Int) (len0 len1 : Nat)
    (n co o0 o1 : Nat) : Int :=
  (∑ ci in Finset.range cin, ∑ a in Finset.range k0, ∑ b in Finset.range k1,
    w co ci a b *
      padIdx mode len0 p0
        (fun t => padIdx mode len1 p1 (x n ci t) (o1 * s1 + b)) (o0 * s0 + a))
  + (if useBias then bias co else 0)

/-- Base 3D convolution primitive (torch nn.Conv3d with groups 1, dilation 1). -/
def conv3d (mode : PadMode) (cin k0 k1 k2 s0 s1 s2 p0 p1 p2 : Nat) (useBias : Bool)
    (bias : Nat → Int) (w : Nat → Nat → Nat → Nat → Nat → Int)
    (x : Nat → Nat → Nat → Nat → Nat → Int) (len0 len1 len2 : Nat)
    (n co o0 o1 o2 : Nat) : Int :=
  (∑ ci in Finset.range cin, ∑ a in Finset.range k0, ∑ b in Finset.range k1,
    ∑ c in Finset.range k2,
    w co ci a b c *
      padIdx mode len0 p0
        (fun t => padIdx mode len1 p1
          (fun u => padIdx mode len2 p2 (x n ci t u) (o2 * s2 + c))
          (o1 * s1 + b))
        (o0 * s0 + a))
  + (if useBias then bias co else 0)

/-- Base 1D transposed convolution primitive (torch nn.ConvTranspose1d with
groups 1, dilation 1, output_padding 0, weight indexed in-channel first):
output position o collects w ci co a * x n ci t whenever t * s + a - p = o. -/
def convT1d (cin k s p : Nat) (w : Nat → Nat → Nat → Int)
    (x : Nat → Nat → Nat → Int) (len : Nat) (n co o : Nat) : Int :=
  ∑ ci in Finset.range cin, ∑ t in Finset.range len, ∑ a in Finset.range k,
    if (o : Int) + p = t * s + a then w ci co a * x n ci t else 0

/-- Output length of a base forward convolution along one axis
(floor((len + 2p - k)/s + 1)), as the tensor engine and line 137 of the
source compute it. -/
def convOutLenI (len k s p : Nat) : Int := ((len : Int) + 2 * p - k) / s + 1

/-- The frame count size_o[0] used by ConvNd.forward: the output-length
formula applied with the locally effective padding pl, clamped to Nat exactly
as Python's list replication clamps a negative count to an empty list. -/
def convNdSizeO (L pl k s : Nat) : Nat := (convOutLenI L k s pl).toNat

/-- Output length of a base transposed convolution along one axis, literally
as line 315 of the source computes it: (len-1)*s - 2p + (k-1) + 1. -/
def convTOutLenI (len k s p : Nat) : Int :=
  ((len : Int) - 1) * s - 2 * p + ((k : Int) - 1) + 1

/-- The frame count size_o[0] used by ConvTransposeNd.forward. -/
def convTSizeO (len k s p : Nat) : Nat := (convTOutLenI len k s p).toNat

/-- Identifier of a tensor-engine base primitive class. -/
inductive BasePrim where
  | conv1d
  | conv2d
  | conv3d
  | convT1d
  | convT2d
  | convT3d
deriving DecidableEq

/-- The constructor arguments of ConvNd / ConvTransposeNd (the ConvSpec of
the design, plus the rank bookkeeping argument).  Tuple arguments are the
lists; the scalar-broadcast convenience of the Python signature is outside
the model. -/
structure ConvCfg where
  inChannels : Nat
  outChannels : Nat
  numDims : Nat
  kernelSize : List Nat
  stride : List Nat
  padding : List Nat
  padMode : PadMode
  dilation : Nat
  groups : Nat
  rank : Int
  useBias : Bool
deriving DecidableEq

/-- Failures of the constructor: a Python IndexError (tuple index out of
range, or kernel_size[0] on an empty tuple), an AssertionError from one of
the explicit configuration asserts (code 0: kernel length, 1: stride length,
2: padding length, 3: dilation), or fuel exhaustion of the explicit
recursion counter (never reached from mkConvNd / mkConvTransposeNd). -/
inductive BuildError where
  | indexError
  | configError (code : Nat)
  | outOfFuel
deriving DecidableEq

/-- Python indexing of a 3-tuple: indices 0,1,2 and the negative wrap-around
indices -1,-2,-3 are valid, everything else raises IndexError (none). -/
def pyIndex3 {α : Type} (t : α × α × α) (idx : Int) : Option α :=
  if idx = 0 ∨ idx = -3 then some t.1
  else if idx = 1 ∨ idx = -2 then some t.2.1
  else if idx = 2 ∨ idx = -1 then some t.2.2
  else none

mutual

/-- A constructed operator: its stored configuration and its kernel_size[0]
child layers (the conv_layers ModuleList). -/
inductive OpTree where
  | node (cfg : ConvCfg) (children : List OpChild)

/-- A child layer: either a tensor-engine base primitive recorded with the
arguments the source passes it (bias is passed False there), or a recursively
constructed operator of one dimension less. -/
inductive OpChild where
  | leaf (prim : BasePrim) (cin cout : Nat) (ks st pd : List Nat)
      (padMode : PadMode) (groups : Nat) (hasBias : Bool)
  | sub (t : OpTree)

end

/-- Building kernel_size[0] identical children in sequence, aborting on the
first construction failure (the loop body of lines 84-115 does not depend on
the loop variable). -/
def buildList {ε α : Type} (f : Except ε α) : Nat → Except ε (List α)
  | 0 => .ok []
  | n + 1 => f.bind fun c => (buildList f n).map fun rest => c :: rest

/-- The shared constructor body of ConvNd.__init__ and
ConvTransposeNd.__init__ (identical up to the primitive triple), with an
explicit fuel counter standing for the recursion depth.  Order of effects is
the source's: primitive selection (line 37) first, then the four asserts,
then kernel_size[0], then the child-building loop.  The recursive branch
passes kernel_size[1:], stride[1:], padding[1:], rank-1 and the same
channels, groups, padding_mode and use_bias, leaving dilation at its
default 1; the leaf branch records bias as False. -/
def mkOpAux (prims : BasePrim × BasePrim × BasePrim) :
    Nat → ConvCfg → Except BuildError OpTree
  | 0, _ => .error .outOfFuel
  | fuel + 1, cfg =>
    let maxDims : Int := (cfg.numDims : Int) - 1
    match pyIndex3 prims (maxDims - 1) with
    | none => .error .indexError
    | some prim =>
      if cfg.kernelSize.length ≠ cfg.numDims then .error (.configError 0)
      else if cfg.stride.length ≠ cfg.numDims then .error (.configError 1)
      else if cfg.padding.length ≠ cfg.numDims then .error (.configError 2)
      else if cfg.dilation ≠ 1 then .error (.configError 3)
      else
        match cfg.kernelSize.head? with
        | none => .error .indexError
        | some nextDimLen =>
          (buildList
            (if (cfg.numDims : Int) - 1 ≠ maxDims then
              (mkOpAux prims fuel
                { cfg with
                  numDims := cfg.numDims - 1
                  kernelSize := cfg.kernelSize.tail
                  stride := cfg.stride.tail
                  padding := cfg.padding.tail
                  rank := cfg.rank - 1
                  dilation := 1 }).map OpChild.sub
            else
              .ok (OpChild.leaf prim cfg.inChannels cfg.outChannels
                cfg.kernelSize.tail cfg.stride.tail cfg.padding.tail
                cfg.padMode cfg.groups false))
            nextDimLen).map
          (OpTree.node cfg)

/-- ConvNd construction: base primitives are
(nn.Conv1d, nn.Conv2d, nn.Conv3d)[max_dims - 1]. -/
def mkConvNd (cfg : ConvCfg) : Except BuildError OpTree :=
  mkOpAux (.conv1d, .conv2d, .conv3d) (cfg.numDims + 1) cfg

/-- ConvTransposeNd construction: base primitives are
(nn.ConvTranspose1d, nn.ConvTranspose2d, nn.ConvTranspose3d)[max_dims - 1]. -/
def mkConvTransposeNd (cfg : ConvCfg) : Except BuildError OpTree :=
  mkOpAux (.convT1d, .convT2d, .convT3d) (cfg.numDims + 1) cfg

/-- The configuration stored in a constructed operator. -/
def OpTree.cfgOf : OpTree → ConvCfg
  | .node c _ => c

/-- The child layers of a constructed operator. -/
def OpTree.childrenOf : OpTree → List OpChild
  | .node _ cs => cs

/-- Whether a child is a tensor-engine base primitive (as opposed to a
recursively constructed operator). -/
def OpChild.isLeafB : OpChild → Bool
  | .leaf .. => true
  | .sub _ => false

/-- Whether a child layer owns a bias vector. -/
def OpChild.hasBiasB : OpChild → Bool
  | .leaf _ _ _ _ _ _ _ _ b => b
  | .sub t => t.cfgOf.useBias

/-- Whether a construction outcome is one of the explicit configuration
assertion failures (as opposed to an IndexError or a success). -/
def errIsConfig {α : Type} : Except BuildError α → Bool
  | .error (.configError _) => true
  | _ => false

/-- One write into the frame accumulator: the source keeps frame_results
(pre-filled with a shared zero tensor) alongside the empty_frames marker
list; the first contribution to a frame replaces the entry, later ones are
added (lines 170-174).  Out-of-range writes cannot occur because the guard
precedes every write. -/
def recordFrame {F : Type} [Add F] (acc : List (Option F)) (o : Nat) (v : F) :
    List (Option F) :=
  match acc.get? o with
  | some none => acc.set o (some v)
  | some (some prev) => acc.set o (some (prev + v))
  | none => acc

/-- The inner loop over input positions j for a fixed kernel offset i:
compute the candidate frame (none when the guard skips) and record. -/
def oaInner {F : Type} [Add F] (target : Nat → Nat → Option Nat)
    (contrib : Nat → Nat → F) (i L : Nat) (acc : List (Option F)) :
    List (Option F) :=
  (List.range L).foldl
    (fun a j =>
      match target i j with
      | none => a
      | some o => recordFrame a o (contrib i j)) acc

/-- The overlap-add double loop (kernel offset i, input position j) starting
from size_o[0] empty frames. -/
def overlapAddLoop {F : Type} [Add F] (target : Nat → Nat → Option Nat)
    (contrib : Nat → Nat → F) (k L n : Nat) : List (Option F) :=
  (List.range k).foldl (fun a i => oaInner target contrib i L a)
    (List.replicate n none)

/-- The value of a frame after the loop: a never-written frame is the shared
zero tensor. -/
def frameVal {F : Type} [Zero F] (acc : List (Option F)) (o : Nat) : F :=
  match acc.get? o with
  | some (some v) => v
  | _ => 0

/-- Frame o of the stacked result of the overlap-add double loop. -/
def ndFrames {F : Type} [AddCommMonoid F] (target : Nat → Nat → Option Nat)
    (contrib : Nat → Nat → F) (k L n o : Nat) : F :=
  frameVal (overlapAddLoop target contrib k L n) o

/-- The frame index computation of ConvNd.forward, lines 154-158, literally:
out_frame = j - (i - k0 div 2) - (L - size_ons) div 2 - (1 - k0 mod 2) with
size_ons = L - k0 + 1, the stride-grid test on out_frame mod s0 taken before
the division, then the range guard; all divisions are Python floor
divisions on ints with positive divisors. -/
def convNdTarget (k0 s0 L sizeO0 : Nat) (i j : Nat) : Option Nat :=
  let sizeOns : Int := (L : Int) - k0 + 1
  let raw : Int :=
    (j : Int) - ((i : Int) - (k0 : Int) / 2) - ((L : Int) - sizeOns) / 2
      - (1 - (k0 : Int) % 2)
  let kcp : Int := raw % (s0 : Int)
  let o : Int := raw / (s0 : Int)
  if o < 0 ∨ (sizeO0 : Int) ≤ o ∨ kcp ≠ 0 then none else some o.toNat

/-- The frame index computation of ConvTransposeNd.forward, line 327:
out_frame = (i + k0 div 2) + j - k0 div 2 - p0, range guard only, no
stride-alignment test. -/
def convTNdTarget (k0 p0 sizeO0 : Nat) (i j : Nat) : Option Nat :=
  let o : Int := ((i : Int) + (k0 : Int) / 2) + (j : Int) - (k0 : Int) / 2 - p0
  if o < 0 ∨ (sizeO0 : Int) ≤ o then none else some o.toNat

/-- Leading-axis pre-padding of a rank-0 forward convolution on a
two-spatial-dimension input (lines 122-130). -/
def padLead2 (mode : PadMode) (len0 p0 : Nat)
    (x : Nat → Nat → Nat → Nat → Int) : Nat → Nat → Nat → Nat → Int :=
  fun n ci t u => padIdx mode len0 p0 (fun t2 => x n ci t2 u) t

/-- Leading-axis pre-padding of a rank-0 forward convolution on a
three-spatial-dimension input. -/
def padLead3 (mode : PadMode) (len0 p0 : Nat)
    (x : Nat → Nat → Nat → Nat → Nat → Int) :
    Nat → Nat → Nat → Nat → Nat → Int :=
  fun n ci t u v => padIdx mode len0 p0 (fun t2 => x n ci t2 u v) t

/-- The body of ConvNd.forward for num_dims = 2 after the rank-0 padding
decision: L is the (possibly padded) leading length, p0l the locally
effective leading padding (zeroed at rank 0), the children are the Conv1d
primitives built at construction (weight w i for child i, bias disabled),
each applied to the slice of the input at position j; the frames are stacked
and the bias, when owned, is added once per output channel. -/
def convNd2Core (mode : PadMode) (cin k0 k1 s0 s1 p0l p1 : Nat)
    (useBias : Bool) (bias : Nat → Int) (w : Nat → Nat → Nat → Nat → Int)
    (xp : Nat → Nat → Nat → Nat → Int) (L len1 : Nat)
    (n co o o1 : Nat) : Int :=
  ndFrames (convNdTarget k0 s0 L (convNdSizeO L p0l k0 s0))
    (fun i j => fun q : Nat × Nat × Nat =>
      conv1d mode cin k1 s1 p1 false (fun _ => 0) (w i)
        (fun m ci u => xp m ci j u) len1 q.1 q.2.1 q.2.2)
    k0 L (convNdSizeO L p0l k0 s0) o (n, co, o1)
  + (if useBias then bias co else 0)

/-- ConvNd.forward for num_dims = 2: at rank 0 the leading axis is
pre-padded and the local padding entry for it zeroed, deeper ranks use the
stored padding unchanged. -/
def convNd2Forward (rank : Int) (mode : PadMode) (cin k0 k1 s0 s1 p0 p1 : Nat)
    (useBias : Bool) (bias : Nat → Int) (w : Nat → Nat → Nat → Nat → Int)
    (x : Nat → Nat → Nat → Nat → Int) (len0 len1 : Nat)
    (n co o o1 : Nat) : Int :=
  if rank = 0 then
    convNd2Core mode cin k0 k1 s0 s1 0 p1 useBias bias w
      (padLead2 mode len0 p0 x) (len0 + 2 * p0) len1 n co o o1
  else
    convNd2Core mode cin k0 k1 s0 s1 p0 p1 useBias bias w x len0 len1 n co o o1

/-- The body of ConvNd.forward for num_dims = 3 (children are Conv2d
primitives). -/
def convNd3Core (mode : PadMode) (cin k0 k1 k2 s0 s1 s2 p0l p1 p2 : Nat)
    (useBias : Bool) (bias : Nat → Int)
    (w : Nat → Nat → Nat → Nat → Nat → Int)
    (xp : Nat → Nat → Nat → Nat → Nat → Int) (L len1 len2 : Nat)
    (n co o o1 o2 : Nat) : Int :=
  ndFrames (convNdTarget k0 s0 L (convNdSizeO L p0l k0 s0))
    (fun i j => fun q : Nat × Nat × Nat × Nat =>
      conv2d mode cin k1 k2 s1 s2 p1 p2 false (fun _ => 0) (w i)
        (fun m ci u v => xp m ci j u v) len1 len2 q.1 q.2.1 q.2.2.1 q.2.2.2)
    k0 L (convNdSizeO L p0l k0 s0) o (n, co, o1, o2)
  + (if useBias then bias co else 0)

/-- ConvNd.forward for num_dims = 3. -/
def convNd3Forward (rank : Int) (mode : PadMode)
    (cin k0 k1 k2 s0 s1 s2 p0 p1 p2 : Nat) (useBias : Bool) (bias : Nat → Int)
    (w : Nat → Nat → Nat → Nat → Nat → Int)
    (x : Nat → Nat → Nat → Nat → Nat → Int) (len0 len1 len2 : Nat)
    (n co o o1 o2 : Nat) : Int :=
  if rank = 0 then
    convNd3Core mode cin k0 k1 k2 s0 s1 s2 0 p1 p2 useBias bias w
      (padLead3 mode len0 p0 x) (len0 + 2 * p0) len1 len2 n co o o1 o2
  else
    convNd3Core mode cin k0 k1 k2 s0 s1 s2 p0 p1 p2 useBias bias w x
      len0 len1 len2 n co o o1 o2

/-- ConvTransposeNd.forward for num_dims = 2: no input pre-padding at any
rank (the padding block is commented out in the source), children are the
ConvTranspose1d primitives, frame mapping per convTNdTarget, then the
bias, when owned, is added once per output channel. -/
def convT2Forward (cin k0 k1 s0 s1 p0 p1 : Nat) (useBias : Bool)
    (bias : Nat → Int) (w : Nat → Nat → Nat → Nat → Int)
    (x : Nat → Nat → Nat → Nat → Int) (len0 len1 : Nat)
    (n co o o1 : Nat) : Int :=
  ndFrames (convTNdTarget k0 p0 (convTSizeO len0 k0 s0 p0))
    (fun i j => fun q : Nat × Nat × Nat =>
      convT1d cin k1 s1 p1 (w i) (fun m ci u => x m ci j u) len1
        q.1 q.2.1 q.2.2)
    k0 len0 (convTSizeO len0 k0 s0 p0) o (n, co, o1)
  + (if useBias then bias co else 0)

/-- The mutable state of a constructed num_dims = 2 forward operator: the
fields the source stores on self that its forward reads. -/
structure ConvNd2Op where
  rank : Int
  padMode : PadMode
  inChannels : Nat
  kernel0 : Nat
  kernel1 : Nat
  stride0 : Nat
  stride1 : Nat
  padding0 : Nat
  padding1 : Nat
  useBias : Bool
  bias : Nat → Int
  weights : Nat → Nat → Nat → Nat → Int

/-- ConvNd.forward as a state-passing operation: it returns the output
tensor together with the operator state after the call.  The source's
forward copies self.padding into a local list before zeroing its leading
entry and assigns no attribute of self, so the state after the call is the
state before it. -/
def ConvNd2Op.applyOp (op : ConvNd2Op) (x : Nat → Nat → Nat → Nat → Int)
    (len0 len1 : Nat) : (Nat → Nat → Nat → Nat → Int) × ConvNd2Op :=
  (fun n co o o1 =>
    convNd2Forward op.rank op.padMode op.inChannels op.kernel0 op.kernel1
      op.stride0 op.stride1 op.padding0 op.padding1 op.useBias op.bias
      op.weights x len0 len1 n co o o1, op)

/-- The mutable state of a constructed num_dims = 2 transposed operator. -/
structure ConvT2Op where
  rank : Int
  padMode : PadMode
  inChannels : Nat
  kernel0 : Nat
  kernel1 : Nat
  stride0 : Nat
  stride1 : Nat
  padding0 : Nat
  padding1 : Nat
  useBias : Bool
  bias : Nat → Int
  weights : Nat → Nat → Nat → Nat → Int

/-- ConvTransposeNd.forward as a state-passing operation; it assigns no
attribute of self. -/
def ConvT2Op.applyOp (op : ConvT2Op) (x : Nat → Nat → Nat → Nat → Int)
    (len0 len1 : Nat) : (Nat → Nat → Nat → Nat → Int) × ConvT2Op :=
  (fun n co o o1 =>
    convT2Forward op.inChannels op.kernel0 op.kernel1 op.stride0 op.stride1
      op.padding0 op.padding1 op.useBias op.bias op.weights x len0 len1
      n co o o1, op)

/-! ### Padding lemmas -/

theorem padIdx_zeros (len p : Nat) (f : Nat → Int) (t : Nat) :
    padIdx .zeros len p f t = if p ≤ t ∧ t < p + len then f (t - p) else 0 := rfl

theorem padIdx_zeros_swap (g : Nat → Nat → Int) (l p l2 p2 t u : Nat) :
    padIdx .zeros l p (fun a => padIdx .zeros l2 p2 (fun b => g a b) u) t
      = padIdx .zeros l2 p2 (fun b => padIdx .zeros l p (fun a => g a b) t) u := by
  simp only [padIdx_zeros]
  split_ifs <;> rfl

theorem padIdx_zeros_rotate3 (g : Nat → Nat → Nat → Int)
    (l0 q0 l1 q1 l2 q2 t u v : Nat) :
    padIdx .zeros l1 q1
        (fun b => padIdx .zeros l2 q2
          (fun c => padIdx .zeros l0 q0 (fun a => g a b c) t) v) u
      = padIdx .zeros l0 q0
        (fun a => padIdx .zeros l1 q1
          (fun b => padIdx .zeros l2 q2 (fun c => g a b c) v) u) t := by
  simp only [padIdx_zeros]
  split_ifs <;> rfl

/-! ### Frame accumulator lemmas -/

theorem frameVal_of_none {F : Type} [Zero F] (acc : List (Option F)) (o : Nat)
    (h : acc.get? o = none) : frameVal acc o = 0 := by
  unfold frameVal
  rw [h]

theorem frameVal_of_some_none {F : Type} [Zero F] (acc : List (Option F)) (o : Nat)
    (h : acc.get? o = some none) : frameVal acc o = 0 := by
  unfold frameVal
  rw [h]

theorem frameVal_of_some_some {F : Type} [Zero F] (acc : List (Option F)) (o : Nat)
    (v : F) (h : acc.get? o = some (some v)) : frameVal acc o = v := by
  unfold frameVal
  rw [h]

theorem recordFrame_length {F : Type} [Add F] (acc : List (Option F)) (o : Nat)
    (v : F) : (recordFrame acc o v).length = acc.length := by
  unfold recordFrame
  split <;> simp

theorem frameVal_recordFrame {F : Type} [AddCommMonoid F] (acc : List (Option F))
    (o o2 : Nat) (v : F) :
    frameVal (recordFrame acc o v) o2
      = frameVal acc o2 + (if o = o2 ∧ o < acc.length then v else 0) := by
  rcases heq : acc.get? o with _ | ov
  · have hlen : acc.length ≤ o := List.get?_eq_none.mp heq
    have hcond : ¬ (o = o2 ∧ o < acc.length) := by omega
    simp only [recordFrame, heq, if_neg hcond, add_zero]
  · have hlt : o < acc.length := by
      by_contra hc
      rw [List.get?_eq_none.mpr (by omega)] at heq
      exact Option.noConfusion heq
    by_cases ho2 : o = o2
    · subst ho2
      rcases ov with _ | prev
      · rw [show recordFrame acc o v = acc.set o (some v) by
            unfold recordFrame; rw [heq]]
        rw [frameVal_of_some_some _ _ v (by
          rw [List.get?_set_eq_of_lt _ hlt]),
          frameVal_of_some_none acc o heq, if_pos ⟨rfl, hlt⟩, zero_add]
      · rw [show recordFrame acc o v = acc.set o (some (prev + v)) by
            unfold recordFrame; rw [heq]]
        rw [frameVal_of_some_some _ _ (prev + v) (by
          rw [List.get?_set_eq_of_lt _ hlt]),
          frameVal_of_some_some acc o prev heq, if_pos ⟨rfl, hlt⟩]
    · have hget : ∀ w : Option F, (acc.set o w).get? o2 = acc.get? o2 :=
        fun w => List.get?_set_ne w acc ho2
      have hcond : ¬ (o = o2 ∧ o < acc.length) := fun hc => ho2 hc.1
      rcases ov with _ | prev
      · rw [show recordFrame acc o v = acc.set o (some v) by
            unfold recordFrame; rw [heq]]
        unfold frameVal
        rw [hget, if_neg hcond, add_zero]
      · rw [show recordFrame acc o v = acc.set o (some (prev + v)) by
            unfold recordFrame; rw [heq]]
        unfold frameVal
        rw [hget, if_neg hcond, add_zero]

theorem foldlInner_length {F : Type} [Add F] (target : Nat → Nat → Option Nat)
    (contrib : Nat → Nat → F) (i : Nat) :
    ∀ (js : List Nat) (acc : List (Option F)),
      (js.foldl (fun a j =>
        match target i j with
        | none => a
        | some o => recordFrame a o (contrib i j)) acc).length = acc.length := by
  intro js
  induction js with
  | nil => intro acc; rfl
  | cons j js ih =>
    intro acc
    rw [List.foldl_cons, ih]
    rcases hjt : target i j with _ | oo
    · simp [hjt]
    · simp [hjt, recordFrame_length]

theorem oaInner_length {F : Type} [Add F] (target : Nat → Nat → Option Nat)
    (contrib : Nat → Nat → F) (i L : Nat) (acc : List (Option F)) :
    (oaInner target contrib i L acc).length = acc.length :=
  foldlInner_length target contrib i (List.range L) acc

theorem foldlInner_frameVal {F : Type} [AddCommMonoid F]
    (target : Nat → Nat → Option Nat) (contrib : Nat → Nat → F) (i n : Nat)
    (hT : ∀ j o, target i j = some o → o < n) :
    ∀ (js : List Nat) (acc : List (Option F)), acc.length = n →
      ∀ o, o < n →
      frameVal (js.foldl (fun a j =>
        match target i j with
        | none => a
        | some oo => recordFrame a oo (contrib i j)) acc) o
        = frameVal acc o
          + (js.map (fun j => if target i j = some o then contrib i j else 0)).sum := by
  intro js
  induction js with
  | nil => intro acc _ o _; simp
  | cons j js ih =>
    intro acc hlen o ho
    rw [List.foldl_cons, List.map_cons, List.sum_cons]
    rcases hjt : target i j with _ | oo
    · simp only [hjt]
      rw [ih acc hlen o ho]
      simp
    · simp only [hjt]
      rw [ih (recordFrame acc oo (contrib i j))
            (by rw [recordFrame_length]; exact hlen) o ho,
          frameVal_recordFrame]
      have hoo : oo < acc.length := by rw [hlen]; exact hT j oo hjt
      by_cases h : oo = o
      · subst h
        rw [if_pos ⟨rfl, hoo⟩, if_pos rfl, add_assoc]
      · rw [if_neg (fun hc => h hc.1),
            if_neg (fun hc => h (Option.some.injEq oo o ▸ hc : oo = o)),
            add_zero, zero_add]

theorem foldlOuter_frameVal {F : Type} [AddCommMonoid F]
    (target : Nat → Nat → Option Nat) (contrib : Nat → Nat → F) (L n : Nat)
    (hT : ∀ i j o, target i j = some o → o < n) :
    ∀ (is : List Nat) (acc : List (Option F)), acc.length = n → ∀ o, o < n →
      frameVal (is.foldl (fun a i => oaInner target contrib i L a) acc) o
        = frameVal acc o
          + (is.map (fun i =>
              ((List.range L).map
                (fun j => if target i j = some o then contrib i j else 0)).sum)).sum := by
  intro is
  induction is with
  | nil => intro acc _ o _; simp
  | cons i is ih =>
    intro acc hlen o ho
    rw [List.foldl_cons, List.map_cons, List.sum_cons,
        ih (oaInner target contrib i L acc)
          (by rw [oaInner_length]; exact hlen) o ho]
    unfold oaInner
    rw [foldlInner_frameVal target contrib i n (hT i) (List.range L) acc hlen o ho,
        add_assoc]

theorem ndFrames_eq_sum {F : Type} [AddCommMonoid F]
    (target : Nat → Nat → Option Nat) (contrib : Nat → Nat → F) (k L n : Nat)
    (hT : ∀ i j o, target i j = some o → o < n) (o : Nat) (ho : o < n) :
    ndFrames target contrib k L n o
      = ∑ i in Finset.range k, ∑ j in Finset.range L,
          if target i j = some o then contrib i j else 0 := by
  unfold ndFrames overlapAddLoop
  rw [foldlOuter_frameVal target contrib L n hT (List.range k)
        (List.replicate n none) (by simp) o ho,
      frameVal_of_some_none _ _ (by
        rw [List.get?_eq_getElem?]
        simp [List.getElem?_replicate, ho]),
      zero_add]
  rfl

/-! ### Characterizing the frame index computations -/

theorem convNdTarget_lt (k0 s0 L n i j o : Nat)
    (h : convNdTarget k0 s0 L n i j = some o) : o < n := by
  simp only [convNdTarget] at h
  split at h
  · exact Option.noConfusion h
  · rename_i hcond
    push_neg at hcond
    obtain ⟨h1, h2, _⟩ := hcond
    have h3 := Option.some.inj h
    omega

theorem convNdTarget_eq_some_iff (k0 s0 L n i j o : Nat) (hk : 1 ≤ k0)
    (hs : 1 ≤ s0) (ho : o < n) :
    convNdTarget k0 s0 L n i j = some o ↔ j = i + o * s0 := by
  have hs0 : (0 : Int) < (s0 : Int) := by exact_mod_cast hs
  have hk2 : (1 : Int) ≤ (k0 : Int) := by exact_mod_cast hk
  have hraw : (j : Int) - ((i : Int) - (k0 : Int) / 2)
      - ((L : Int) - ((L : Int) - (k0 : Int) + 1)) / 2 - (1 - (k0 : Int) % 2)
      = (j : Int) - (i : Int) := by omega
  simp only [convNdTarget]
  rw [hraw]
  constructor
  · intro h
    split at h
    · exact Option.noConfusion h
    · rename_i hcond
      push_neg at hcond
      obtain ⟨h1, h2, h3⟩ := hcond
      have htn : (((j : Int) - i) / s0).toNat = o := Option.some.inj h
      have hdiv : ((j : Int) - i) / (s0 : Int) = (o : Int) := by omega
      have hmod := Int.ediv_add_emod ((j : Int) - i) (s0 : Int)
      rw [h3, add_zero, hdiv] at hmod
      have hj : (j : Int) = (i : Int) + (o : Int) * (s0 : Int) := by
        linear_combination -hmod
      exact_mod_cast hj
  · intro hj
    subst hj
    have hc : ((i + o * s0 : Nat) : Int) - (i : Int) = (o : Int) * (s0 : Int) := by
      push_cast
      ring
    rw [hc, Int.mul_ediv_cancel _ (ne_of_gt hs0), Int.mul_emod_left]
    rw [if_neg (by push_neg; refine ⟨by omega, by omega, rfl⟩)]
    rw [Option.some.injEq]
    omega

theorem convNd_slice_lt (k0 s0 L i o : Nat) (hs : 1 ≤ s0) (hL : k0 ≤ L)
    (hi : i < k0) (ho : o < convNdSizeO L 0 k0 s0) : i + o * s0 < L := by
  have hs0 : (0 : Int) < (s0 : Int) := by exact_mod_cast hs
  have hL2 : (k0 : Int) ≤ (L : Int) := by exact_mod_cast hL
  have hE : convOutLenI L k0 s0 0 = ((L : Int) - k0) / s0 + 1 := by
    unfold convOutLenI
    push_cast
    ring_nf
  have ho3 : (o : Int) < ((L : Int) - k0) / s0 + 1 := by
    unfold convNdSizeO at ho
    rw [hE] at ho
    exact Int.lt_toNat.mp ho
  have ho2 : (o : Int) ≤ ((L : Int) - k0) / s0 := by omega
  have hmul : (o : Int) * s0 ≤ ((L : Int) - k0) / s0 * s0 :=
    mul_le_mul_of_nonneg_right ho2 (le_of_lt hs0)
  have hdm : ((L : Int) - k0) / s0 * s0 ≤ (L : Int) - k0 := by
    have h1 := Int.ediv_add_emod ((L : Int) - k0) (s0 : Int)
    have h2 := Int.emod_nonneg ((L : Int) - k0) (ne_of_gt hs0)
    nlinarith [h1, h2]
  have hi2 : (i : Int) < (k0 : Int) := by exact_mod_cast hi
  have hfin : (i : Int) + (o : Int) * (s0 : Int) < (L : Int) := by
    linarith [hmul, hdm, hi2]
  exact_mod_cast hfin

theorem ndFrames_convNd {F : Type} [AddCommMonoid F] (k0 s0 L : Nat)
    (contrib : Nat → Nat → F) (hk : 1 ≤ k0) (hs : 1 ≤ s0) (hL : k0 ≤ L)
    (o : Nat) (ho : o < convNdSizeO L 0 k0 s0) :
    ndFrames (convNdTarget k0 s0 L (convNdSizeO L 0 k0 s0)) contrib k0 L
        (convNdSizeO L 0 k0 s0) o
      = ∑ i in Finset.range k0, contrib i (i + o * s0) := by
  rw [ndFrames_eq_sum _ _ _ _ _
        (fun i j oo h => convNdTarget_lt _ _ _ _ _ _ _ h) o ho]
  refine Finset.sum_congr rfl (fun i hi => ?_)
  have hi2 : i < k0 := Finset.mem_range.mp hi
  rw [Finset.sum_congr rfl (fun j _ =>
    if_congr (convNdTarget_eq_some_iff k0 s0 L _ i j o hk hs ho) rfl rfl)]
  rw [Finset.sum_ite_eq' (Finset.range L) (i + o * s0) (fun j => contrib i j)]
  rw [if_pos (Finset.mem_range.mpr (convNd_slice_lt k0 s0 L i o hs hL hi2 ho))]

theorem convTNdTarget_lt (k0 p0 n i j o : Nat)
    (h : convTNdTarget k0 p0 n i j = some o) : o < n := by
  simp only [convTNdTarget] at h
  split at h
  · exact Option.noConfusion h
  · rename_i hcond
    push_neg at hcond
    obtain ⟨h1, h2⟩ := hcond
    have h3 := Option.some.inj h
    omega

theorem convTNdTarget_eq_some_iff (k0 p0 n i j o : Nat) (ho : o < n) :
    convTNdTarget k0 p0 n i j = some o ↔ i + j = o + p0 := by
  simp only [convTNdTarget]
  have hsimp : ((i : Int) + (k0 : Int) / 2) + (j : Int) - (k0 : Int) / 2 - (p0 : Int)
      = (i : Int) + j - p0 := by ring
  rw [hsimp]
  constructor
  · intro h
    split at h
    · exact Option.noConfusion h
    · rename_i hcond
      push_neg at hcond
      have h3 := Option.some.inj h
      omega
  · intro h
    rw [if_neg (by push_neg; constructor <;> omega)]
    rw [Option.some.injEq]
    omega

theorem ndFrames_convT {F : Type} [AddCommMonoid F] (k0 p0 L n : Nat)
    (contrib : Nat → Nat → F) (o : Nat) (ho : o < n) :
    ndFrames (convTNdTarget k0 p0 n) contrib k0 L n o
      = ∑ i in Finset.range k0, ∑ j in Finset.range L,
          if i + j = o + p0 then contrib i j else 0 := by
  rw [ndFrames_eq_sum _ _ _ _ _
        (fun i j oo h => convTNdTarget_lt _ _ _ _ _ _ h) o ho]
  exact Finset.sum_congr rfl (fun i _ => Finset.sum_congr rfl (fun j _ =>
    if_congr (convTNdTarget_eq_some_iff k0 p0 n i j o ho) rfl rfl))

/-! ### Construction lemmas -/

theorem buildList_ok {ε α : Type} (c : α) :
    ∀ n : Nat, buildList (Except.ok c : Except ε α) n = .ok (List.replicate n c) := by
  intro n
  induction n with
  | zero => rfl
  | succ n ih =>
    simp only [buildList, ih]
    rfl

theorem mkOpAux_ok_children (prims : BasePrim × BasePrim × BasePrim)
    (fuel : Nat) (cfg : ConvCfg) (t : OpTree)
    (h : mkOpAux prims fuel cfg = .ok t) :
    ∃ prim k0, cfg.kernelSize.head? = some k0
      ∧ t = OpTree.node cfg (List.replicate k0
          (OpChild.leaf prim cfg.inChannels cfg.outChannels cfg.kernelSize.tail
            cfg.stride.tail cfg.padding.tail cfg.padMode cfg.groups false)) := by
  match fuel with
  | 0 => exact absurd h (by simp [mkOpAux])
  | fuel + 1 =>
    simp only [mkOpAux] at h
    split at h
    · exact absurd h (by simp)
    · rename_i prim hsel
      by_cases hA : cfg.kernelSize.length ≠ cfg.numDims
      · rw [if_pos hA] at h
        exact absurd h (by simp)
      · rw [if_neg hA] at h
        by_cases hB : cfg.stride.length ≠ cfg.numDims
        · rw [if_pos hB] at h
          exact absurd h (by simp)
        · rw [if_neg hB] at h
          by_cases hC : cfg.padding.length ≠ cfg.numDims
          · rw [if_pos hC] at h
            exact absurd h (by simp)
          · rw [if_neg hC] at h
            by_cases hD : cfg.dilation ≠ 1
            · rw [if_pos hD] at h
              exact absurd h (by simp)
            · rw [if_neg hD] at h
              split at h
              · exact absurd h (by simp)
              · rename_i k0 hk0
                rw [if_neg (fun hc => hc rfl)] at h
                rw [buildList_ok] at h
                refine ⟨prim, k0, hk0, ?_⟩
                have h2 : OpTree.node cfg (List.replicate k0
                    (OpChild.leaf prim cfg.inChannels cfg.outChannels
                      cfg.kernelSize.tail cfg.stride.tail cfg.padding.tail
                      cfg.padMode cfg.groups false)) = t := by
                  have h3 := h
                  simp only [Except.map] at h3
                  exact Except.ok.inj h3
                exact h2.symm

theorem mkOpAux_ok_all_leaf (prims : BasePrim × BasePrim × BasePrim)
    (fuel : Nat) (cfg : ConvCfg) (t : OpTree)
    (h : mkOpAux prims fuel cfg = .ok t) :
    ∀ c ∈ t.childrenOf, c.isLeafB = true ∧ c.hasBiasB = false := by
  obtain ⟨prim, k0, _, ht⟩ := mkOpAux_ok_children prims fuel cfg t h
  subst ht
  intro c hc
  have hc2 := List.eq_of_mem_replicate hc
  subst hc2
  exact ⟨rfl, rfl⟩

theorem pyIndex3_none_of_ge3 {α : Type} (t : α × α × α) (idx : Int)
    (h : 3 ≤ idx) : pyIndex3 t idx = none := by
  unfold pyIndex3
  rw [if_neg (by omega), if_neg (by omega), if_neg (by omega)]

theorem mkOpAux_ge5_indexError (prims : BasePrim × BasePrim × BasePrim)
    (fuel : Nat) (cfg : ConvCfg) (h5 : 5 ≤ cfg.numDims) :
    mkOpAux prims (fuel + 1) cfg = .error .indexError := by
  simp only [mkOpAux]
  rw [pyIndex3_none_of_ge3 _ _ (by omega)]

theorem mkOpAux_configError (prims : BasePrim × BasePrim × BasePrim)
    (fuel : Nat) (cfg : ConvCfg)
    (hlo : 1 ≤ cfg.numDims) (hhi : cfg.numDims ≤ 4)
    (hbad : cfg.kernelSize.length ≠ cfg.numDims
      ∨ cfg.stride.length ≠ cfg.numDims
      ∨ cfg.padding.length ≠ cfg.numDims
      ∨ cfg.dilation ≠ 1) :
    errIsConfig (mkOpAux prims (fuel + 1) cfg) = true := by
  simp only [mkOpAux]
  have hsel : ∃ prim, pyIndex3 prims ((cfg.numDims : Int) - 1 - 1) = some prim := by
    have hd : cfg.numDims = 1 ∨ cfg.numDims = 2 ∨ cfg.numDims = 3
        ∨ cfg.numDims = 4 := by omega
    rcases hd with h | h | h | h
    · exact ⟨prims.2.2, by rw [h]; norm_num [pyIndex3]⟩
    · exact ⟨prims.1, by rw [h]; norm_num [pyIndex3]⟩
    · exact ⟨prims.2.1, by rw [h]; norm_num [pyIndex3]⟩
    · exact ⟨prims.2.2, by rw [h]; norm_num [pyIndex3]⟩
  obtain ⟨prim, hs⟩ := hsel
  simp only [hs]
  by_cases hA : cfg.kernelSize.length ≠ cfg.numDims
  · rw [if_pos hA]
    rfl
  · rw [if_neg hA]
    by_cases hB : cfg.stride.length ≠ cfg.numDims
    · rw [if_pos hB]
      rfl
    · rw [if_neg hB]
      by_cases hC : cfg.padding.length ≠ cfg.numDims
      · rw [if_pos hC]
        rfl
      · rw [if_neg hC]
        rw [if_pos (by tauto)]
        rfl

/-! ### The decomposition agrees with the direct base convolution -/

theorem convNd2_refines (cin k0 k1 s0 s1 p0 p1 len0 len1 : Nat)
    (useBias : Bool) (bias : Nat → Int) (W : Nat → Nat → Nat → Nat → Int)
    (x : Nat → Nat → Nat → Nat → Int) (hk : 1 ≤ k0) (hs : 1 ≤ s0)
    (hL : k0 ≤ len0 + 2 * p0) (n co o o1 : Nat)
    (ho : o < convNdSizeO (len0 + 2 * p0) 0 k0 s0) :
    convNd2Forward 0 .zeros cin k0 k1 s0 s1 p0 p1 useBias bias
        (fun i c ci b => W c ci i b) x len0 len1 n co o o1
      = conv2d .zeros cin k0 k1 s0 s1 p0 p1 useBias bias W x len0 len1 n co o o1 := by
  unfold convNd2Forward
  rw [if_pos rfl]
  unfold convNd2Core conv2d
  congr 1
  rw [ndFrames_convNd k0 s0 (len0 + 2 * p0) _ hk hs hL o ho, Finset.sum_apply]
  have hpoint : ∀ i ∈ Finset.range k0,
      conv1d .zeros cin k1 s1 p1 false (fun _ => 0) (fun c ci b => W c ci i b)
        (fun m ci u => padLead2 .zeros len0 p0 x m ci (i + o * s0) u) len1 n co o1
      = ∑ ci in Finset.range cin, ∑ b in Finset.range k1,
          W co ci i b * padIdx .zeros len0 p0
            (fun t => padIdx .zeros len1 p1 (x n ci t) (o1 * s1 + b))
            (o * s0 + i) := by
    intro i _
    unfold conv1d padLead2
    rw [if_neg Bool.false_ne_true, add_zero]
    refine Finset.sum_congr rfl (fun ci _ => Finset.sum_congr rfl (fun b _ => ?_))
    have hsw := padIdx_zeros_swap (fun a b2 => x n ci b2 a) len1 p1 len0 p0
      (o1 * s1 + b) (i + o * s0)
    simp only [] at hsw
    rw [hsw, Nat.add_comm i (o * s0)]
  rw [Finset.sum_congr rfl hpoint, Finset.sum_comm]

theorem convNd3_refines (cin k0 k1 k2 s0 s1 s2 p0 p1 p2 len0 len1 len2 : Nat)
    (useBias : Bool) (bias : Nat → Int) (W : Nat → Nat → Nat → Nat → Nat → Int)
    (x : Nat → Nat → Nat → Nat → Nat → Int) (hk : 1 ≤ k0) (hs : 1 ≤ s0)
    (hL : k0 ≤ len0 + 2 * p0) (n co o o1 o2 : Nat)
    (ho : o < convNdSizeO (len0 + 2 * p0) 0 k0 s0) :
    convNd3Forward 0 .zeros cin k0 k1 k2 s0 s1 s2 p0 p1 p2 useBias bias
        (fun i c ci b cc => W c ci i b cc) x len0 len1 len2 n co o o1 o2
      = conv3d .zeros cin k0 k1 k2 s0 s1 s2 p0 p1 p2 useBias bias W x
          len0 len1 len2 n co o o1 o2 := by
  unfold convNd3Forward
  rw [if_pos rfl]
  unfold convNd3Core conv3d
  congr 1
  rw [ndFrames_convNd k0 s0 (len0 + 2 * p0) _ hk hs hL o ho, Finset.sum_apply]
  have hpoint : ∀ i ∈ Finset.range k0,
      conv2d .zeros cin k1 k2 s1 s2 p1 p2 false (fun _ => 0)
        (fun c ci b cc => W c ci i b cc)
        (fun m ci u v => padLead3 .zeros len0 p0 x m ci (i + o * s0) u v)
        len1 len2 n co o1 o2
      = ∑ ci in Finset.range cin, ∑ b in Finset.range k1, ∑ c in Finset.range k2,
          W co ci i b c * padIdx .zeros len0 p0
            (fun t => padIdx .zeros len1 p1
              (fun u => padIdx .zeros len2 p2 (x n ci t u) (o2 * s2 + c))
              (o1 * s1 + b))
            (o * s0 + i) := by
    intro i _
    unfold conv2d padLead3
    rw [if_neg Bool.false_ne_true, add_zero]
    refine Finset.sum_congr rfl (fun ci _ => Finset.sum_congr rfl (fun b _ =>
      Finset.sum_congr rfl (fun c _ => ?_)))
    have hsw := padIdx_zeros_rotate3 (fun a b2 c2 => x n ci a b2 c2) len0 p0
      len1 p1 len2 p2 (i + o * s0) (o1 * s1 + b) (o2 * s2 + c)
    simp only [] at hsw
    rw [hsw, Nat.add_comm i (o * s0)]
  rw [Finset.sum_congr rfl hpoint, Finset.sum_comm]

theorem convNd2_zero_weights (mode : PadMode) (cin k0 k1 s0 s1 p0 p1 len0 len1 : Nat)
    (bias : Nat → Int) (x : Nat → Nat → Nat → Nat → Int) (hk : 1 ≤ k0)
    (hs : 1 ≤ s0) (hL : k0 ≤ len0 + 2 * p0) (n co o o1 : Nat)
    (ho : o < convNdSizeO (len0 + 2 * p0) 0 k0 s0) :
    convNd2Forward 0 mode cin k0 k1 s0 s1 p0 p1 true bias
      (fun _ _ _ _ => 0) x len0 len1 n co o o1 = bias co := by
  unfold convNd2Forward
  rw [if_pos rfl]
  unfold convNd2Core
  rw [ndFrames_convNd k0 s0 (len0 + 2 * p0) _ hk hs hL o ho, Finset.sum_apply,
      if_pos rfl]
  have hz : ∀ i ∈ Finset.range k0,
      conv1d mode cin k1 s1 p1 false (fun _ => 0) (fun _ _ _ => (0 : Int))
        (fun m ci u => padLead2 mode len0 p0 x m ci (i + o * s0) u) len1 n co o1
        = 0 := by
    intro i _
    unfold conv1d
    rw [if_neg Bool.false_ne_true, add_zero]
    simp
  rw [Finset.sum_congr rfl hz, Finset.sum_const_zero, zero_add]

theorem convNdSizeO_formula (len0 k0 s0 p0 : Nat) (hL : k0 ≤ len0 + 2 * p0) :
    ((convNdSizeO (len0 + 2 * p0) 0 k0 s0 : Nat) : Int)
      = ((len0 : Int) + 2 * p0 - k0) / s0 + 1 := by
  unfold convNdSizeO convOutLenI
  have h1 : (((len0 + 2 * p0 : Nat) : Int) + 2 * ((0 : Nat) : Int) - (k0 : Int))
      = ((len0 : Int) + 2 * p0 - k0) := by
    push_cast
    ring
  rw [h1]
  have h2 : (0 : Int) ≤ ((len0 : Int) + 2 * p0 - k0) / s0 := by
    apply Int.ediv_nonneg
    · have : (k0 : Int) ≤ (len0 : Int) + 2 * p0 := by exact_mod_cast hL
      omega
    · exact Int.natCast_nonneg s0
  rw [Int.toNat_of_nonneg (by omega)]

theorem convTSizeO_formula (len0 k0 s0 p0 : Nat) (hlen : 1 ≤ len0)
    (hpos : 2 * p0 + 1 ≤ (len0 - 1) * s0 + k0) :
    ((convTSizeO len0 k0 s0 p0 : Nat) : Int)
      = ((len0 : Int) - 1) * s0 - 2 * p0 + k0 := by
  unfold convTSizeO convTOutLenI
  have hcast : (((len0 - 1) * s0 + k0 : Nat) : Int)
      = ((len0 : Int) - 1) * s0 + k0 := by
    push_cast [hlen]
    ring
  have hpos2 : (2 * (p0 : Int) + 1) ≤ ((len0 : Int) - 1) * s0 + k0 := by
    rw [← hcast]
    exact_mod_cast hpos
  rw [Int.toNat_of_nonneg (by omega)]
  ring

/-! ### Claim theorems -/

/-- C1: the spec claims that whenever num_dims - 1 is not 3 (more than 3
spatial dims remaining after consuming the leading one) the kernel_size[0]
children are recursive NdConvOp instances of dimensionality num_dims - 1.
In the code the recursive branch tests num_dims - 1 against max_dims, which
is itself num_dims - 1, so it can never fire, and already at num_dims = 5
the base-primitive selection (Conv1d, Conv2d, Conv3d)[max_dims - 1] raises
an IndexError (index 3) before any child is built; the transposed
constructor fails identically. -/
theorem mkConvNd_five_dims_indexError :
    mkConvNd ⟨1, 1, 5, [2, 2, 2, 2, 2], [1, 1, 1, 1, 1], [0, 0, 0, 0, 0],
        .zeros, 1, 1, 0, true⟩ = .error .indexError
    ∧ mkConvTransposeNd ⟨1, 1, 5, [2, 2, 2, 2, 2], [1, 1, 1, 1, 1],
        [0, 0, 0, 0, 0], .zeros, 1, 1, 0, true⟩ = .error .indexError :=
  ⟨rfl, rfl⟩

/-- C2: for every num_dims ≥ 5, ConvNd and ConvTransposeNd construction
fails with the IndexError raised while selecting the base convolution
primitive, before any child operator is built; consequently every
successfully constructed operator has only leaf base-primitive children
(the recursive branch is never taken). -/
theorem mkOp_ge5_error_and_children_leaves :
    (∀ cfg : ConvCfg, 5 ≤ cfg.numDims →
      mkConvNd cfg = .error .indexError
        ∧ mkConvTransposeNd cfg = .error .indexError)
    ∧ (∀ (cfg : ConvCfg) (t : OpTree), mkConvNd cfg = .ok t →
        ∀ c ∈ t.childrenOf, c.isLeafB = true)
    ∧ (∀ (cfg : ConvCfg) (t : OpTree), mkConvTransposeNd cfg = .ok t →
        ∀ c ∈ t.childrenOf, c.isLeafB = true) :=
  ⟨fun cfg h => ⟨mkOpAux_ge5_indexError _ cfg.numDims cfg h,
      mkOpAux_ge5_indexError _ cfg.numDims cfg h⟩,
   fun _ _ h c hc => (mkOpAux_ok_all_leaf _ _ _ _ h c hc).1,
   fun _ _ h c hc => (mkOpAux_ok_all_leaf _ _ _ _ h c hc).1⟩

theorem mkOp_ge5_error_witness :
    mkConvNd ⟨1, 1, 6, [2, 2, 2, 2, 2, 2], [1, 1, 1, 1, 1, 1],
        [0, 0, 0, 0, 0, 0], .zeros, 1, 1, 0, true⟩ = .error .indexError :=
  (mkOp_ge5_error_and_children_leaves.1 _ (by decide)).1

/-- C3: for num_dims = 2 and num_dims = 3 with zero-fill padding mode, the
overlap-add decomposition of ConvNd.forward at rank 0 is numerically equal
to a direct single call of the base 2D / 3D convolution primitive whose
weight slices along the leading kernel axis are the children's 1D / 2D
weights, for every kernel size, stride (dividing the padded length evenly
or not) and padding, at every valid output position. -/
theorem convNd_forward_matches_direct_conv :
    (∀ (cin k0 k1 s0 s1 p0 p1 len0 len1 : Nat) (useBias : Bool)
      (bias : Nat → Int) (W : Nat → Nat → Nat → Nat → Int)
      (x : Nat → Nat → Nat → Nat → Int) (n co o o1 : Nat),
      1 ≤ k0 → 1 ≤ s0 → k0 ≤ len0 + 2 * p0 →
      o < convNdSizeO (len0 + 2 * p0) 0 k0 s0 →
      convNd2Forward 0 .zeros cin k0 k1 s0 s1 p0 p1 useBias bias
          (fun i c ci b => W c ci i b) x len0 len1 n co o o1
        = conv2d .zeros cin k0 k1 s0 s1 p0 p1 useBias bias W x len0 len1
            n co o o1)
    ∧ (∀ (cin k0 k1 k2 s0 s1 s2 p0 p1 p2 len0 len1 len2 : Nat)
      (useBias : Bool) (bias : Nat → Int) (W : Nat → Nat → Nat → Nat → Nat → Int)
      (x : Nat → Nat → Nat → Nat → Nat → Int) (n co o o1 o2 : Nat),
      1 ≤ k0 → 1 ≤ s0 → k0 ≤ len0 + 2 * p0 →
      o < convNdSizeO (len0 + 2 * p0) 0 k0 s0 →
      convNd3Forward 0 .zeros cin k0 k1 k2 s0 s1 s2 p0 p1 p2 useBias bias
          (fun i c ci b cc => W c ci i b cc) x len0 len1 len2 n co o o1 o2
        = conv3d .zeros cin k0 k1 k2 s0 s1 s2 p0 p1 p2 useBias bias W x
            len0 len1 len2 n co o o1 o2) :=
  ⟨fun cin k0 k1 s0 s1 p0 p1 len0 len1 useBias bias W x n co o o1 h1 h2 h3 h4 =>
      convNd2_refines cin k0 k1 s0 s1 p0 p1 len0 len1 useBias bias W x
        h1 h2 h3 n co o o1 h4,
   fun cin k0 k1 k2 s0 s1 s2 p0 p1 p2 len0 len1 len2 useBias bias W x
      n co o o1 o2 h1 h2 h3 h4 =>
      convNd3_refines cin k0 k1 k2 s0 s1 s2 p0 p1 p2 len0 len1 len2 useBias
        bias W x h1 h2 h3 n co o o1 o2 h4⟩

theorem convNd_forward_matches_direct_conv_witness :
    convNd2Forward 0 .zeros 1 2 1 2 1 1 0 false (fun _ => 0)
        (fun _ _ _ _ => 1) (fun _ _ _ _ => 1) 3 1 0 0 0 0
      = conv2d .zeros 1 2 1 2 1 1 0 false (fun _ => 0)
          (fun _ _ _ _ => 1) (fun _ _ _ _ => 1) 3 1 0 0 0 0 :=
  convNd_forward_matches_direct_conv.1 1 2 1 2 1 1 0 3 1 false (fun _ => 0)
    (fun _ _ _ _ => 1) (fun _ _ _ _ => 1) 0 0 0 0
    (by decide) (by decide) (by decide) (by decide)

/-- C4: the spatial extent of the output along each axis: the leading frame
count used by ConvNd.forward (after the rank-0 pre-pad with the local
padding entry zeroed) equals floor((in_len + 2*pad - k)/stride + 1) on the
original input length, the inner axes follow the same formula through the
base primitives, and for ConvTransposeNd both the leading frame count and
the inner extents equal (in_len - 1)*stride - 2*pad + k. -/
theorem conv_output_size_formulas (len0 len1 k0 k1 s0 s1 p0 p1 : Nat)
    (hL : k0 ≤ len0 + 2 * p0) (hlen : 1 ≤ len0)
    (hpos : 2 * p0 + 1 ≤ (len0 - 1) * s0 + k0) :
    ((convNdSizeO (len0 + 2 * p0) 0 k0 s0 : Nat) : Int)
        = ((len0 : Int) + 2 * p0 - k0) / s0 + 1
    ∧ convOutLenI len1 k1 s1 p1 = ((len1 : Int) + 2 * p1 - k1) / s1 + 1
    ∧ ((convTSizeO len0 k0 s0 p0 : Nat) : Int)
        = ((len0 : Int) - 1) * s0 - 2 * p0 + k0
    ∧ convTOutLenI len1 k1 s1 p1 = ((len1 : Int) - 1) * s1 - 2 * p1 + k1 :=
  ⟨convNdSizeO_formula len0 k0 s0 p0 hL, rfl,
   convTSizeO_formula len0 k0 s0 p0 hlen hpos, by unfold convTOutLenI; ring⟩

theorem conv_output_size_formulas_witness :
    ((convNdSizeO (3 + 2 * 0) 0 2 1 : Nat) : Int)
        = ((3 : Int) + 2 * 0 - 2) / 1 + 1
    ∧ convOutLenI 3 2 1 0 = ((3 : Int) + 2 * 0 - 2) / 1 + 1
    ∧ ((convTSizeO 3 2 1 0 : Nat) : Int) = ((3 : Int) - 1) * 1 - 2 * 0 + 2
    ∧ convTOutLenI 3 2 1 0 = ((3 : Int) - 1) * 1 - 2 * 0 + 2 :=
  conv_output_size_formulas 3 3 2 2 1 1 0 0 (by decide) (by decide) (by decide)

/-- C5: bias is owned only by the top level: every child of a successfully
constructed operator (ConvNd or ConvTransposeNd) has bias disabled, and
with all child weights zero a rank-0 forward pass with bias enabled returns
exactly bias broadcast over the output channels, i.e. bias is added exactly
once per output element. -/
theorem bias_top_level_only :
    (∀ (cfg : ConvCfg) (t : OpTree), mkConvNd cfg = .ok t →
      ∀ c ∈ t.childrenOf, c.hasBiasB = false)
    ∧ (∀ (cfg : ConvCfg) (t : OpTree), mkConvTransposeNd cfg = .ok t →
      ∀ c ∈ t.childrenOf, c.hasBiasB = false)
    ∧ (∀ (mode : PadMode) (cin k0 k1 s0 s1 p0 p1 len0 len1 : Nat)
        (bias : Nat → Int) (x : Nat → Nat → Nat → Nat → Int) (n co o o1 : Nat),
        1 ≤ k0 → 1 ≤ s0 → k0 ≤ len0 + 2 * p0 →
        o < convNdSizeO (len0 + 2 * p0) 0 k0 s0 →
        convNd2Forward 0 mode cin k0 k1 s0 s1 p0 p1 true bias
          (fun _ _ _ _ => 0) x len0 len1 n co o o1 = bias co) :=
  ⟨fun _ _ h c hc => (mkOpAux_ok_all_leaf _ _ _ _ h c hc).2,
   fun _ _ h c hc => (mkOpAux_ok_all_leaf _ _ _ _ h c hc).2,
   fun mode cin k0 k1 s0 s1 p0 p1 len0 len1 bias x n co o o1 h1 h2 h3 h4 =>
     convNd2_zero_weights mode cin k0 k1 s0 s1 p0 p1 len0 len1 bias x
       h1 h2 h3 n co o o1 h4⟩

theorem bias_top_level_only_witness :
    convNd2Forward 0 .zeros 1 1 1 1 1 0 0 true (fun _ => 5)
      (fun _ _ _ _ => 0) (fun _ _ _ _ => 7) 1 1 0 0 0 0 = 5 :=
  bias_top_level_only.2.2 .zeros 1 1 1 1 1 0 0 1 1 (fun _ => 5)
    (fun _ _ _ _ => 7) 0 0 0 0 (by decide) (by decide) (by decide) (by decide)

/-- C6: the spec claims that for num_dims = 1 the decomposition collapses to
the base 1D convolution primitive.  In the code max_dims - 1 = -1, so the
Python tuple index wraps around and selects nn.Conv3d, and the children are
built with the empty trailing kernel size, stride and padding (a Conv3d
whose application to a one-spatial-axis slice is a tensor-engine shape
error), so forward cannot agree with the direct 1D primitive. -/
theorem mkConvNd_one_dim_selects_conv3d :
    mkConvNd ⟨1, 1, 1, [2], [1], [0], .zeros, 1, 1, 0, true⟩
      = .ok (.node ⟨1, 1, 1, [2], [1], [0], .zeros, 1, 1, 0, true⟩
          [.leaf .conv3d 1 1 [] [] [] .zeros 1 false,
           .leaf .conv3d 1 1 [] [] [] .zeros 1 false]) := rfl

/-- C7: ConvTransposeNd.forward performs no leading-axis input padding, and
its frame computation (i + k0 div 2) + j - k0 div 2 - padding sends the
contribution of kernel offset i and input position j exactly to output
frame i + j - padding, dropping only frames outside the output range, with
no stride-alignment test. -/
theorem convT_overlap_add_mapping (cin k0 k1 s0 s1 p0 p1 len0 len1 : Nat)
    (useBias : Bool) (bias : Nat → Int) (w : Nat → Nat → Nat → Nat → Int)
    (x : Nat → Nat → Nat → Nat → Int) (n co o o1 : Nat)
    (ho : o < convTSizeO len0 k0 s0 p0) :
    convT2Forward cin k0 k1 s0 s1 p0 p1 useBias bias w x len0 len1 n co o o1
      = (∑ i in Finset.range k0, ∑ j in Finset.range len0,
          if i + j = o + p0 then
            convT1d cin k1 s1 p1 (w i) (fun m ci u => x m ci j u) len1 n co o1
          else 0)
        + (if useBias then bias co else 0) := by
  unfold convT2Forward
  congr 1
  rw [ndFrames_convT k0 p0 len0 (convTSizeO len0 k0 s0 p0) _ o ho,
      Finset.sum_apply]
  refine Finset.sum_congr rfl (fun i _ => ?_)
  rw [Finset.sum_apply]
  refine Finset.sum_congr rfl (fun j _ => ?_)
  rw [ite_apply]
  rfl

theorem convT_overlap_add_mapping_witness :
    convT2Forward 1 1 1 1 1 0 0 false (fun _ => 0) (fun _ _ _ _ => 1)
        (fun _ _ _ _ => 1) 1 1 0 0 0 0
      = (∑ i in Finset.range 1, ∑ j in Finset.range 1,
          if i + j = 0 + 0 then
            convT1d 1 1 1 0 ((fun _ _ _ _ => (1 : Int)) i)
              (fun m ci u => (fun _ _ _ _ => (1 : Int)) m ci j u) 1 0 0 0
          else 0)
        + (if false then (fun _ => (0 : Int)) 0 else 0) :=
  convT_overlap_add_mapping 1 1 1 1 1 0 0 1 1 false (fun _ => 0)
    (fun _ _ _ _ => 1) (fun _ _ _ _ => 1) 0 0 0 0 (by decide)

/-- C8 (amended): for 1 ≤ num_dims ≤ 4, where the base-primitive selection
succeeds, constructing with a kernel_size, stride or padding tuple whose
length differs from num_dims, or with dilation not 1, fails with one of the
configuration assertions eagerly, before any child operator is built, and
forward contains no configuration check; for num_dims ≥ 5 the IndexError of
the primitive selection preempts the length assertions, so the failure is
then not a configuration error. -/
theorem config_validation_eager (cfg : ConvCfg) (h1 : 1 ≤ cfg.numDims)
    (h2 : cfg.numDims ≤ 4)
    (hbad : cfg.kernelSize.length ≠ cfg.numDims
      ∨ cfg.stride.length ≠ cfg.numDims
      ∨ cfg.padding.length ≠ cfg.numDims
      ∨ cfg.dilation ≠ 1) :
    errIsConfig (mkConvNd cfg) = true
      ∧ errIsConfig (mkConvTransposeNd cfg) = true :=
  ⟨mkOpAux_configError _ cfg.numDims cfg h1 h2 hbad,
   mkOpAux_configError _ cfg.numDims cfg h1 h2 hbad⟩

theorem config_validation_eager_witness :
    errIsConfig (mkConvNd ⟨1, 1, 2, [2], [1, 1], [0, 0], .zeros, 1, 1, 0, true⟩)
      = true :=
  (config_validation_eager _ (by decide) (by decide) (Or.inl (by decide))).1

/-- C8 counterexample: with num_dims = 5 and a kernel_size tuple of length
4, construction fails with the IndexError from the primitive selection
rather than a configuration assertion, refuting the claim as stated. -/
theorem config_validation_counterexample :
    mkConvNd ⟨1, 1, 5, [2, 2, 2, 2], [1, 1, 1, 1, 1], [0, 0, 0, 0, 0],
        .zeros, 1, 1, 0, true⟩ = .error .indexError
    ∧ errIsConfig (mkConvNd ⟨1, 1, 5, [2, 2, 2, 2], [1, 1, 1, 1, 1],
        [0, 0, 0, 0, 0], .zeros, 1, 1, 0, true⟩) = false :=
  ⟨rfl, rfl⟩

/-- C9: forward is a pure function of the operator state and the input: the
state-passing apply of both operators returns the operator state unchanged
(in particular the stored padding, of which forward zeroes only a local
copy), so applying again on the returned state with the same input yields
the identical output. -/
theorem forward_pure_no_state_mutation (op : ConvNd2Op) (opT : ConvT2Op)
    (x : Nat → Nat → Nat → Nat → Int) (len0 len1 : Nat) :
    (op.applyOp x len0 len1).2 = op
    ∧ ((op.applyOp x len0 len1).2).padding0 = op.padding0
    ∧ (((op.applyOp x len0 len1).2).applyOp x len0 len1).1
        = (op.applyOp x len0 len1).1
    ∧ (opT.applyOp x len0 len1).2 = opT
    ∧ (((opT.applyOp x len0 len1).2).applyOp x len0 len1).1
        = (opT.applyOp x len0 len1).1 :=
  ⟨rfl, rfl, rfl, rfl, rfl⟩

/-- C10: end-to-end: num_dims = 3, channels 1 to 1, kernel (2,2,2), stride
(1,1,1), padding (0,0,0), all weights 1, bias 0, all-ones input of spatial
shape (3,3,3): the output has spatial shape (2,2,2) and every element
equals 8. -/
theorem convNd3_end_to_end_ones (n o y z : Nat) (ho : o < 2) (hy : y < 2)
    (hz : z < 2) :
    convNd3Forward 0 .zeros 1 2 2 2 1 1 1 0 0 0 true (fun _ => 0)
        (fun _ _ _ _ _ => 1) (fun _ _ _ _ _ => 1) 3 3 3 n 0 o y z = 8
    ∧ convNdSizeO (3 + 2 * 0) 0 2 1 = 2 ∧ convOutLenI 3 2 1 0 = 2 := by
  refine ⟨?_, by decide, by decide⟩
  unfold convNd3Forward
  rw [if_pos rfl]
  unfold convNd3Core
  have hsz : convNdSizeO (3 + 2 * 0) 0 2 1 = 2 := by decide
  rw [ndFrames_convNd 2 1 (3 + 2 * 0) _ (by norm_num) (by norm_num)
        (by norm_num) o (by omega), Finset.sum_apply, if_pos rfl]
  interval_cases o <;> interval_cases y <;> interval_cases z <;>
    norm_num [conv2d, padLead3, padIdx_zeros, Finset.sum_range_succ,
      Finset.sum_range_zero]

theorem convNd3_end_to_end_ones_witness :
    convNd3Forward 0 .zeros 1 2 2 2 1 1 1 0 0 0 true (fun _ => 0)
        (fun _ _ _ _ _ => 1) (fun _ _ _ _ _ => 1) 3 3 3 0 0 0 0 0 = 8 :=
  (convNd3_end_to_end_ones 0 0 0 0 (by decide) (by decide) (by decide)).1
